import Mathlib

/-!
Verification development for the ExamSmith repository.

The repository ships a React frontend (`Frontend/src`), project documentation
and setup scripts; the FastAPI backend that the documentation describes is not
part of the sources. Frontend functions are embedded directly from the
JavaScript sources; backend behaviour that is only declared or called from the
frontend is modelled from the specification, and each such definition is
marked `Modelled from the spec:` in its doc comment.

Scores and marks are embedded as rationals (`ℚ`); JavaScript numbers carry no
overflow concerns in the ranges used here.
-/

namespace ExamSmith

/-- Paper lifecycle states, as used by `Teacher.jsx` (`renderActionButtons`,
`getStatusBadgeClass`) and described in the documentation. -/
inductive PaperStatus
  | DRAFT
  | REVISED
  | APPROVED
  | PUBLISHED
deriving DecidableEq, Repr

/-- The wire representation of a status, as stored in `paper.status`. -/
def statusString : PaperStatus → String
  | .DRAFT => "DRAFT"
  | .REVISED => "REVISED"
  | .APPROVED => "APPROVED"
  | .PUBLISHED => "PUBLISHED"

/-- Which conditional action buttons `renderActionButtons` renders for a paper
(the View and Download buttons are unconditional and omitted). -/
structure ActionButtons where
  approve : Bool
  publish : Bool
  unpublish : Bool
deriving DecidableEq, Repr

/-- JavaScript's `String.prototype.toUpperCase`, character by character
(the status strings involved are plain ASCII). -/
def jsToUpperCase (s : String) : String := ⟨s.data.map Char.toUpper⟩

/-- Embeds `renderActionButtons` (Teacher dashboard, `part_004` lines 174-237):
`const status = paper.status?.toUpperCase()`; the Approve button is rendered
when `status === 'DRAFT' || status === 'REVISED'`, Publish when
`status === 'APPROVED'`, Unpublish when `status === 'PUBLISHED'`. -/
def renderActionButtons (status : String) : ActionButtons :=
  let s := jsToUpperCase status
  { approve := s == "DRAFT" || s == "REVISED"
    publish := s == "APPROVED"
    unpublish := s == "PUBLISHED" }

/-- The status-changing operations exposed by `api.js`:
`approvePaper`, `publishPaper`, `unpublishPaper`. -/
inductive StatusOp
  | approve
  | publish
  | unpublish
deriving DecidableEq, Repr

/-- Error raised on an illegal Paper status change. -/
inductive TransitionError
  | StateTransitionError
deriving DecidableEq, Repr

/-- Modelled from the spec: the backend handlers behind `approvePaper`,
`publishPaper` and `unpublishPaper` are not in the sources; §4.4/§6 state that
they enforce the state machine `DRAFT → REVISED → APPROVED → PUBLISHED` with
`PUBLISHED → APPROVED` (unpublish) as the only backward edge, that approve is
allowed from `DRAFT`/`REVISED` and requires zero failed slots, publish from
`APPROVED`, unpublish from `PUBLISHED`, and that any other attempt is rejected
with `StateTransitionError`. -/
def applyStatusOp : StatusOp → PaperStatus → Nat → Except TransitionError PaperStatus
  | .approve, .DRAFT, 0 => .ok .APPROVED
  | .approve, .REVISED, 0 => .ok .APPROVED
  | .publish, .APPROVED, _ => .ok .PUBLISHED
  | .unpublish, .PUBLISHED, _ => .ok .APPROVED
  | _, _, _ => .error .StateTransitionError

/-- The paper status after attempting an operation: a rejected operation
leaves the stored status untouched. -/
def statusAfter (op : StatusOp) (s : PaperStatus) (failedSlots : Nat) : PaperStatus :=
  match applyStatusOp op s failedSlots with
  | .ok s' => s'
  | .error _ => s

/-- Position of a status along the forward chain
`DRAFT → REVISED → APPROVED → PUBLISHED`. -/
def rank : PaperStatus → Nat
  | .DRAFT => 0
  | .REVISED => 1
  | .APPROVED => 2
  | .PUBLISHED => 3

/-- C1: every successful approve/publish/unpublish moves the status strictly
forward along the chain `DRAFT→REVISED→APPROVED→PUBLISHED`, except for the
single backward edge `PUBLISHED→APPROVED` taken by unpublish; a rejected
operation leaves the status unchanged; approve succeeds only from `DRAFT` or
`REVISED`, publish only from `APPROVED`, unpublish only from `PUBLISHED`; and
the dashboard offers the Approve button exactly on `DRAFT`/`REVISED` papers,
Publish exactly on `APPROVED` papers and Unpublish exactly on `PUBLISHED`
papers. -/
theorem paper_status_transitions (op : StatusOp) (s : PaperStatus) (f : Nat) :
    ((applyStatusOp op s f).isOk = false → statusAfter op s f = s) ∧
    (∀ s', applyStatusOp op s f = .ok s' →
      rank s < rank s' ∨ (s = .PUBLISHED ∧ s' = .APPROVED)) ∧
    (∀ s', applyStatusOp .approve s f = .ok s' →
      (s = .DRAFT ∨ s = .REVISED) ∧ s' = .APPROVED) ∧
    (∀ s', applyStatusOp .publish s f = .ok s' → s = .APPROVED ∧ s' = .PUBLISHED) ∧
    (∀ s', applyStatusOp .unpublish s f = .ok s' → s = .PUBLISHED ∧ s' = .APPROVED) ∧
    ((renderActionButtons (statusString s)).approve
      = (decide (s = .DRAFT) || decide (s = .REVISED))) ∧
    ((renderActionButtons (statusString s)).publish = decide (s = .APPROVED)) ∧
    ((renderActionButtons (statusString s)).unpublish = decide (s = .PUBLISHED)) := by
  refine ⟨?_, ?_, ?_, ?_, ?_, ?_, ?_, ?_⟩
  · cases op <;> cases s <;> cases f <;> simp [applyStatusOp, statusAfter, Except.isOk, Except.toBool]
  · intro s' h
    cases op <;> cases s <;> cases f <;>
      simp_all [applyStatusOp] <;> simp [rank, ← h]
  · intro s' h
    cases s <;> cases f <;> simp_all [applyStatusOp]
  · intro s' h
    cases s <;> cases f <;> simp_all [applyStatusOp]
  · intro s' h
    cases s <;> cases f <;> simp_all [applyStatusOp]
  · cases s <;> decide
  · cases s <;> decide
  · cases s <;> decide

/-- Witness for C1: concrete evaluation at publish on an `APPROVED` paper. -/
theorem paper_status_transitions_witness :
    statusAfter .publish .APPROVED 0 = .PUBLISHED ∧
    (rank .APPROVED < rank .PUBLISHED ∨
      (PaperStatus.APPROVED = .PUBLISHED ∧ PaperStatus.PUBLISHED = .APPROVED)) := by
  refine ⟨by decide, ?_⟩
  exact (paper_status_transitions .publish .APPROVED 0).2.1 .PUBLISHED rfl

/-! ## Grading: MCQ questions -/

/-- Modelled from the spec: the grading engine is not in the sources; §4.5
states that an `MCQ` answer is graded by exact match against the stored
correct option index, and marks awarded are all-or-nothing (full marks or
zero). -/
def gradeMCQ (submittedIndex correctIndex : Nat) (fullMarks : ℚ) : ℚ :=
  if submittedIndex = correctIndex then fullMarks else 0

/-- C6: MCQ grading is all-or-nothing — the awarded marks are either `0` or
the full marks, full marks are awarded exactly on a match with the stored
correct option index, zero otherwise, and (for positive full marks) full
marks characterise a match. -/
theorem mcq_grading_all_or_nothing (sub cor : Nat) (m : ℚ) :
    (gradeMCQ sub cor m = 0 ∨ gradeMCQ sub cor m = m) ∧
    (sub = cor → gradeMCQ sub cor m = m) ∧
    (sub ≠ cor → gradeMCQ sub cor m = 0) ∧
    (0 < m → (gradeMCQ sub cor m = m ↔ sub = cor)) := by
  by_cases h : sub = cor
  · simp [gradeMCQ, h]
  · refine ⟨Or.inl (by simp [gradeMCQ, h]), fun hc => absurd hc h,
      fun _ => by simp [gradeMCQ, h], fun hm => ?_⟩
    simp only [gradeMCQ, if_neg h]
    exact ⟨fun h0 => absurd h0.symm (ne_of_gt hm), fun hc => absurd hc h⟩

/-- Witness for C6: a wrong answer on a 1-mark MCQ scores 0, not 1. -/
theorem mcq_grading_all_or_nothing_witness :
    gradeMCQ 2 1 1 = 0 ∧ (gradeMCQ 1 1 1 = 1 ↔ (1 : Nat) = 1) := by
  exact ⟨(mcq_grading_all_or_nothing 2 1 1).2.2.1 (by decide),
    (mcq_grading_all_or_nothing 1 1 1).2.2.2 (by norm_num)⟩

/-! ## Revision records and history retrieval -/

/-- A revision audit record, as returned by the `/revision-history` endpoint
and consumed by `QuestionPaper.jsx` (`rev.question_number`, sequence index,
feedback). -/
structure RevisionRecord where
  paper_id : String
  question_number : Nat
  sequence_index : Nat
  feedback : String
deriving DecidableEq, Repr

/-- The response shape of `getRevisionHistory`: `{ revisions,
total_revisions }` (the fallback value built in `api.js`). -/
structure RevisionHistoryResponse where
  revisions : List RevisionRecord
  total_revisions : Nat
deriving DecidableEq, Repr

/-- A failure of the underlying axios request: network failure or an HTTP
error status. -/
inductive ApiError
  | network
  | server (status : Nat)
deriving DecidableEq, Repr

/-- Embeds the URL construction of `getRevisionHistory` (`api.js` lines
362-374): `let url = `/revision-history/${paperId}`;
if (questionNumber !== null) url += `?question_number=${questionNumber}`. -/
def revisionHistoryUrl (paperId : String) (questionNumber : Option Nat) : String :=
  let url := "/revision-history/" ++ paperId
  match questionNumber with
  | none => url
  | some n => url ++ "?question_number=" ++ toString n

/-- Embeds `getRevisionHistory` (`api.js` lines 362-374): the GET request is
wrapped in try/catch; on success the response data is returned, on any error
the fallback `{ revisions: [], total_revisions: 0 }` is returned instead of
re-throwing. The underlying request is abstracted as a function from the URL
to either data or an `ApiError`. -/
def getRevisionHistory (request : String → Except ApiError RevisionHistoryResponse)
    (paperId : String) (questionNumber : Option Nat) : RevisionHistoryResponse :=
  match request (revisionHistoryUrl paperId questionNumber) with
  | .ok data => data
  | .error _ => { revisions := [], total_revisions := 0 }

/-- C9: `getRevisionHistory` never propagates a failure of the underlying
request: whatever the request does, the caller receives the response data on
success and the fallback `{ revisions: [], total_revisions: 0 }` on any
error — in both cases a value carrying a `revisions` field. -/
theorem getRevisionHistory_never_throws
    (request : String → Except ApiError RevisionHistoryResponse)
    (paperId : String) (questionNumber : Option Nat) :
    (∀ d, request (revisionHistoryUrl paperId questionNumber) = .ok d →
      getRevisionHistory request paperId questionNumber = d) ∧
    (∀ e, request (revisionHistoryUrl paperId questionNumber) = .error e →
      getRevisionHistory request paperId questionNumber
        = { revisions := [], total_revisions := 0 }) := by
  constructor
  · intro d h; simp [getRevisionHistory, h]
  · intro e h; simp [getRevisionHistory, h]

/-- Witness for C9: a request that always fails with a network error yields
the fallback value. -/
theorem getRevisionHistory_never_throws_witness :
    getRevisionHistory (fun _ => .error .network) "paper-1" none
      = { revisions := [], total_revisions := 0 } :=
  (getRevisionHistory_never_throws (fun _ => .error .network) "paper-1" none).2
    .network rfl

/-! ## Evaluation aggregation -/

/-- Embeds `overallAverage` (`part_006` lines 113-117):
`Object.values(scores || {}).filter(v => v !== null && v !== undefined)`,
`null` on an empty filtered list, else `reduce((a, b) => a + b, 0) / length`.
The score object is embedded as the list of its values, a `null`/`undefined`
value being `none`. -/
def overallAverage (scores : List (Option ℚ)) : Option ℚ :=
  let vals := scores.filterMap id
  if vals.length = 0 then none
  else some (vals.foldl (· + ·) 0 / vals.length)

theorem foldl_add_eq_sum (l : List ℚ) (a : ℚ) : l.foldl (· + ·) a = a + l.sum := by
  induction l generalizing a with
  | nil => simp
  | cons x xs ih => simp [List.foldl_cons, ih, add_assoc]

/-- C10: `overallAverage` is total — it returns `null` exactly when no
non-null score exists (empty object or all values null/undefined), otherwise
the sum of the non-null values divided by their (positive) count; null
entries are excluded from both the sum and the count, so prepending a null
never changes the result. -/
theorem overallAverage_total (scores : List (Option ℚ)) :
    (overallAverage scores = none ↔ scores.filterMap id = []) ∧
    (scores.filterMap id ≠ [] →
      0 < (scores.filterMap id).length ∧
      overallAverage scores
        = some ((scores.filterMap id).sum / (scores.filterMap id).length)) ∧
    overallAverage (none :: scores) = overallAverage scores := by
  refine ⟨?_, ?_, ?_⟩
  · simp [overallAverage, List.length_eq_zero]
  · intro h
    refine ⟨List.length_pos.mpr h, ?_⟩
    simp [overallAverage, List.length_eq_zero, h, foldl_add_eq_sum]
  · simp [overallAverage]

/-- Witness for C10: on `{a: 1, b: null, c: 0}` the average is `1/2`, the
null entry being excluded from sum and count. -/
theorem overallAverage_total_witness :
    overallAverage [some 1, none, some 0] = some (1 / 2) := by
  have h := (overallAverage_total [some 1, none, some 0]).2.1 (by decide)
  rw [h.2]
  simp [List.filterMap_cons]

/-- Modelled from the spec: the evaluation harness is not in the sources;
§4.7 states that the aggregate score of a metric is the arithmetic mean of
that metric's per-sample scores across all evaluated samples of the run. -/
def aggregateMetric (sampleScores : List ℚ) : Option ℚ :=
  if sampleScores.length = 0 then none
  else some (sampleScores.sum / sampleScores.length)

/-- C5: for a run with at least one evaluated sample, each metric's aggregate
equals the arithmetic mean of its per-sample scores, and the overall run
score (`overallAverage` over the per-metric aggregates) equals the arithmetic
mean of the per-metric aggregate scores. -/
theorem evaluation_aggregation_means (metricScores : List (List ℚ))
    (hne : metricScores ≠ []) (hall : ∀ l ∈ metricScores, l ≠ []) :
    (∀ l ∈ metricScores, aggregateMetric l = some (l.sum / l.length)) ∧
    overallAverage (metricScores.map aggregateMetric)
      = some ((metricScores.map (fun l => l.sum / (l.length : ℚ))).sum
          / metricScores.length) := by
  have hagg : ∀ l ∈ metricScores, aggregateMetric l = some (l.sum / l.length) := by
    intro l hl
    have : l.length ≠ 0 := by simpa [List.length_eq_zero] using hall l hl
    simp [aggregateMetric, this]
  refine ⟨hagg, ?_⟩
  have hmap : metricScores.map aggregateMetric
      = (metricScores.map (fun l => l.sum / (l.length : ℚ))).map some := by
    rw [List.map_map]
    exact List.map_congr_left hagg
  rw [hmap]
  have hlen : ((metricScores.map (fun l => l.sum / (l.length : ℚ))).length)
      = metricScores.length := List.length_map _ _
  have hnz : (metricScores.map (fun l => l.sum / (l.length : ℚ))).length ≠ 0 := by
    rw [hlen]
    simpa [List.length_eq_zero] using hne
  simp [overallAverage, List.filterMap_map, hnz, hne, foldl_add_eq_sum, hlen]

/-- Witness for C5: a run with two metrics, each scored on two samples. -/
theorem evaluation_aggregation_means_witness :
    aggregateMetric [1, 0] = some ((1 + 0) / 2) ∧
    overallAverage ([[ (1 : ℚ), 0], [1, 1]].map aggregateMetric)
      = some (((1 + 0) / 2 + (1 + 1) / 2) / 2) := by
  have h := evaluation_aggregation_means [[1, 0], [1, 1]] (by decide)
    (by intro l hl; fin_cases hl <;> decide)
  constructor
  · have := h.1 [1, 0] (by simp)
    rw [this]; norm_num
  · rw [h.2]; norm_num

/-! ## Chat orchestrator: quota, streaming, cancellation -/

/-- Chat-side errors from the error taxonomy (§7). -/
inductive ChatError
  | QuotaExceededError
  | GenerationTimeoutError
deriving DecidableEq, Repr

/-- Outcome of one chat turn at the orchestrator. -/
structure TurnResult where
  response : Except ChatError (List String)
  generationCalls : Nat
  remainingQuota : Nat
deriving Repr

/-- Modelled from the spec: the chat orchestrator is not in the sources; §4.6
states that each turn atomically checks-and-decrements the student's daily
quota and rejects with `QuotaExceededError` before generation starts if it is
exhausted — a generation that cannot be billed against quota is never
started. -/
def chatTurn (quota : Nat) (generated : List String) : TurnResult :=
  if quota = 0 then
    { response := .error .QuotaExceededError, generationCalls := 0, remainingQuota := 0 }
  else
    { response := .ok generated, generationCalls := 1, remainingQuota := quota - 1 }

/-- Modelled from the spec: §7 propagation policy — transient
validation/timeout errors are retried with bounded backoff, while quota and
state-transition errors are never retried. -/
def isRetried : ChatError → Bool
  | .QuotaExceededError => false
  | .GenerationTimeoutError => true

/-- The fetch API's `response.ok`: status in the 200-299 range. -/
def responseOk (status : Nat) : Bool := 200 ≤ status && status < 300

/-- How `handleSend` continues after receiving the response head. -/
inductive DispatchResult
  | quotaLimit
  | httpFailure (status : Nat)
  | readStream
deriving DecidableEq, Repr

/-- Embeds the response dispatch of `handleSend` (Chatbot.jsx lines 151-169):
`if (response.status === 429)` show the daily-limit error and return at once
(the stream is never read); `if (!response.ok)` throw; otherwise read the SSE
stream. -/
def dispatchResponseStatus (status : Nat) : DispatchResult :=
  if status == 429 then .quotaLimit
  else if !(responseOk status) then .httpFailure status
  else .readStream

/-- Embeds the send-button gating (Chatbot.jsx line 416):
`disabled={isLoading || !inputValue.trim() || remainingQuota === 0}`. -/
def sendButtonDisabled (isLoading : Bool) (inputValue : String)
    (remainingQuota : Option Nat) : Bool :=
  isLoading || inputValue.trim == "" || remainingQuota == some 0

/-- Embeds the textarea gating (Chatbot.jsx line 410):
`disabled={isLoading || remainingQuota === 0}`. -/
def chatInputDisabled (isLoading : Bool) (remainingQuota : Option Nat) : Bool :=
  isLoading || remainingQuota == some 0

/-- C2: a turn on an exhausted quota is rejected with `QuotaExceededError`
with zero generation calls issued, the rejection is not a retried error
class, the client returns a 429 response to the user immediately without
reading any stream, and the chat input is disabled once the remaining quota
is zero. -/
theorem quota_rejected_before_generation (generated : List String) :
    (chatTurn 0 generated).response = .error .QuotaExceededError ∧
    (chatTurn 0 generated).generationCalls = 0 ∧
    isRetried .QuotaExceededError = false ∧
    dispatchResponseStatus 429 = .quotaLimit ∧
    (∀ isLoading inputValue,
      sendButtonDisabled isLoading inputValue (some 0) = true) ∧
    (∀ isLoading, chatInputDisabled isLoading (some 0) = true) := by
  refine ⟨rfl, rfl, rfl, rfl, ?_, ?_⟩
  · intro l inp; simp [sendButtonDisabled]
  · intro l; simp [chatInputDisabled]

/-- Witness for C2: concrete evaluation at an exhausted quota. -/
theorem quota_rejected_before_generation_witness :
    (chatTurn 0 ["tok"]).generationCalls = 0 ∧
    sendButtonDisabled false "hi" (some 0) = true := by
  have h := quota_rejected_before_generation ["tok"]
  exact ⟨h.2.1, h.2.2.2.2.1 false "hi"⟩

/-- The SSE events of the chat stream, as dispatched on in `handleSend`
(`event: meta | token | done | error` with their JSON payload fields). -/
inductive SSEEvent
  | meta (session_id : String) (remaining_quota : Nat)
  | token (t : String)
  | done (sources : List String) (remaining_quota : Nat)
  | errorEv (message : String)
deriving DecidableEq, Repr

/-- The client-side state mutated by the SSE loop of `handleSend`:
`fullMessage`, `sources`, and the `sessionId` / `remainingQuota` / `error`
React states. -/
structure StreamState where
  fullMessage : String
  sources : List String
  sessionId : Option String
  remainingQuota : Option Nat
  errorMsg : Option String
deriving DecidableEq, Repr

def initStreamState : StreamState :=
  { fullMessage := "", sources := [], sessionId := none,
    remainingQuota := none, errorMsg := none }

/-- Embeds the per-event handling of `handleSend` (Chatbot.jsx lines
200-231): `meta` sets the session id and remaining quota, `token` appends to
`fullMessage`, `done` records the sources and final quota, `error` sets the
error message. -/
def processEvent (st : StreamState) (e : SSEEvent) : StreamState :=
  match e with
  | .meta sid q => { st with sessionId := some sid, remainingQuota := some q }
  | .token t => { st with fullMessage := st.fullMessage ++ t }
  | .done srcs q => { st with sources := srcs, remainingQuota := some q }
  | .errorEv m => { st with errorMsg := some m }

def processEvents (st : StreamState) (events : List SSEEvent) : StreamState :=
  events.foldl processEvent st

/-- Modelled from the spec: the streaming endpoint behind
`/student/chat/stream` is not in the sources; §4.6/§6 state that a successful
turn emits a `meta` event carrying the session id and remaining quota before
the first token, then the generated tokens, and terminates with a `done`
event carrying the source attributions and the final quota value. -/
def chatTurnStream (sessionId : String) (remainingQuota : Nat)
    (tokens : List String) (sources : List String) : List SSEEvent :=
  .meta sessionId remainingQuota ::
    (tokens.map .token ++ [.done sources remainingQuota])

def isMeta : SSEEvent → Bool
  | .meta _ _ => true
  | _ => false

/-- JavaScript string accumulation `fullMessage += data.token` over a token
list. -/
def joinTokens (tokens : List String) : String := tokens.foldl (· ++ ·) ""

theorem processEvents_tokens (tokens : List String) (st : StreamState) :
    processEvents st (tokens.map SSEEvent.token)
      = { st with fullMessage := tokens.foldl (· ++ ·) st.fullMessage } := by
  induction tokens generalizing st with
  | nil => rfl
  | cons t ts ih =>
    have h : processEvents st ((t :: ts).map SSEEvent.token)
        = processEvents { st with fullMessage := st.fullMessage ++ t }
            (ts.map SSEEvent.token) := rfl
    rw [h, ih]
    rfl

/-- C3: the stream of a successful chat turn contains exactly one `meta`
event; that event is the very first one (so no `token` precedes it) and
carries the session id and remaining quota; everything strictly between the
head and the terminal event is a `token` event; the stream terminates with a
`done` event carrying the sources and the final quota; and the embedded
client SSE loop run over such a stream reconstructs exactly the concatenated
message, session id, quota and sources with no error. -/
theorem chat_stream_event_order (sid : String) (rem : Nat)
    (toks srcs : List String) :
    (chatTurnStream sid rem toks srcs).countP isMeta = 1 ∧
    (chatTurnStream sid rem toks srcs).head? = some (.meta sid rem) ∧
    ((chatTurnStream sid rem toks srcs).drop 1).dropLast
      = toks.map SSEEvent.token ∧
    (chatTurnStream sid rem toks srcs).getLast? = some (.done srcs rem) ∧
    processEvents initStreamState (chatTurnStream sid rem toks srcs)
      = { fullMessage := joinTokens toks, sources := srcs,
          sessionId := some sid, remainingQuota := some rem,
          errorMsg := none } := by
  refine ⟨?_, rfl, ?_, ?_, ?_⟩
  · have h0 : (toks.map SSEEvent.token).countP isMeta = 0 := by
      rw [List.countP_eq_zero]
      intro e he
      obtain ⟨t, _, rfl⟩ := List.mem_map.mp he
      simp [isMeta]
    simp [chatTurnStream, List.countP_cons, List.countP_append, h0, isMeta]
  · simp [chatTurnStream, List.dropLast_concat]
  · rw [show chatTurnStream sid rem toks srcs
        = (SSEEvent.meta sid rem :: toks.map SSEEvent.token)
            ++ [SSEEvent.done srcs rem] from by simp [chatTurnStream]]
    exact List.getLast?_concat _
  · have h : processEvents initStreamState (chatTurnStream sid rem toks srcs)
        = processEvent
            (processEvents (processEvent initStreamState (SSEEvent.meta sid rem))
              (toks.map SSEEvent.token))
            (SSEEvent.done srcs rem) := by
      simp only [chatTurnStream, processEvents, List.foldl_cons,
        List.foldl_append, List.foldl_nil]
    rw [h, processEvents_tokens]
    rfl

/-- Witness for C3: a concrete two-token stream. -/
theorem chat_stream_event_order_witness :
    (chatTurnStream "s1" 4 ["a", "b"] ["src"]).countP isMeta = 1 ∧
    (chatTurnStream "s1" 4 ["a", "b"] ["src"]).getLast?
      = some (.done ["src"] 4) := by
  have h := chat_stream_event_order "s1" 4 ["a", "b"] ["src"]
  exact ⟨h.1, h.2.2.2.1⟩

/-- A chat message as stored in the `messages` React state. -/
structure Message where
  role : String
  content : String
  sources : List String
deriving DecidableEq, Repr

def userMessage (content : String) : Message :=
  { role := "user", content := content, sources := [] }

def assistantMessage (content : String) (sources : List String) : Message :=
  { role := "assistant", content := content, sources := sources }

/-- Embeds the read loop of `handleSend` (Chatbot.jsx lines 178-240): each
`reader.read()` either delivers a chunk of events or raises (in particular
the `AbortError` raised when the fetch is aborted mid-stream); a read error
is caught by the inner catch which `break`s out of the loop, so reads after
the failing one are never processed. -/
def readLoop (st : StreamState) : List (Except Unit (List SSEEvent)) → StreamState
  | [] => st
  | .error _ :: _ => st
  | .ok events :: rest => readLoop (processEvents st events) rest

/-- Embeds the message-history effect of one `handleSend` call (Chatbot.jsx
lines 100-101 and 266-276): the user message is appended before the request;
after the read loop ends — normally or via the inner catch's `break` — the
accumulated `fullMessage`, when non-empty, is appended as the assistant
message together with the collected sources. -/
def handleSendMessages (prior : List Message) (userMsg : String)
    (reads : List (Except Unit (List SSEEvent))) : List Message :=
  let afterUser := prior ++ [userMessage userMsg]
  let st := readLoop initStreamState reads
  if st.fullMessage = "" then afterUser
  else afterUser ++ [assistantMessage st.fullMessage st.sources]

/-- C4 counterexample: a turn aborted mid-stream after the token `"Hel"` was
received leaves the history `[user "hi", assistant "Hel"]`, not the pre-turn
history `[]` — the partial assistant message is persisted. -/
theorem chat_abort_counterexample :
    handleSendMessages [] "hi"
        [Except.ok [SSEEvent.token "Hel"], Except.error ()]
      = [userMessage "hi", assistantMessage "Hel" []] ∧
    handleSendMessages [] "hi"
        [Except.ok [SSEEvent.token "Hel"], Except.error ()]
      ≠ ([] : List Message) := by
  constructor
  · rfl
  · decide

theorem readLoop_stops_at_abort (chunks : List (List SSEEvent))
    (rest : List (Except Unit (List SSEEvent))) (st : StreamState) :
    readLoop st (chunks.map Except.ok ++ Except.error () :: rest)
      = processEvents st chunks.flatten := by
  induction chunks generalizing st with
  | nil => rfl
  | cons c cs ih =>
    have h : readLoop st ((c :: cs).map Except.ok ++ Except.error () :: rest)
        = readLoop (processEvents st c) (cs.map Except.ok ++ Except.error () :: rest) := rfl
    rw [h, ih]
    simp [processEvents, List.foldl_append]

/-- C4 amended: when a chat turn is cancelled mid-stream, the read loop
processes nothing after the aborting read (the stream is released), but the
message history is not rolled back to its pre-turn value: the user message
stays appended, and whenever some token content was received before the
abort, that partial content is appended as an assistant message. -/
theorem chat_abort_history (prior : List Message) (userMsg : String)
    (chunks : List (List SSEEvent)) (rest : List (Except Unit (List SSEEvent))) :
    handleSendMessages prior userMsg
        (chunks.map Except.ok ++ Except.error () :: rest)
      = (prior ++ [userMessage userMsg])
        ++ (if (processEvents initStreamState chunks.flatten).fullMessage = ""
            then []
            else [assistantMessage
              (processEvents initStreamState chunks.flatten).fullMessage
              (processEvents initStreamState chunks.flatten).sources]) := by
  unfold handleSendMessages
  rw [readLoop_stops_at_abort]
  by_cases h : (processEvents initStreamState chunks.flatten).fullMessage = "" <;>
    simp [h]

/-- Witness for the amended C4: concrete evaluation at one received token
followed by an abort. -/
theorem chat_abort_history_witness :
    handleSendMessages [] "hi"
        ([[SSEEvent.token "Hel"]].map Except.ok ++ Except.error () :: [])
      = (([] : List Message) ++ [userMessage "hi"])
        ++ (if (processEvents initStreamState
                  [[SSEEvent.token "Hel"]].flatten).fullMessage = ""
            then []
            else [assistantMessage
              (processEvents initStreamState
                [[SSEEvent.token "Hel"]].flatten).fullMessage
              (processEvents initStreamState
                [[SSEEvent.token "Hel"]].flatten).sources]) :=
  chat_abort_history [] "hi" [[SSEEvent.token "Hel"]] []

/-! ## Revision subsystem: regenerate-all and the revision log -/

/-- A question of a paper, with the fields `handleQuestionRevised` touches. -/
structure Question where
  question_number : Nat
  question_text : String
  is_revised : Bool
deriving DecidableEq, Repr

/-- Embeds `handleQuestionRevised` (Teacher dashboard, `part_004` lines
148-162): maps over the paper's questions, replacing the question whose
`question_number` matches with the revised question marked
`is_revised: true`, and returning every other question unchanged. -/
def handleQuestionRevised (questions : List Question) (questionNumber : Nat)
    (revised : Question) : List Question :=
  questions.map fun q =>
    if q.question_number == questionNumber then
      { revised with is_revised := true }
    else q

/-- The outcome of one regeneration slot: its (possibly revised) question and
its failure flag. -/
structure SlotResult where
  question : Question
  failed : Bool
deriving DecidableEq, Repr

/-- Modelled from the spec: the regenerate-all backend is not in the sources;
§4.3/§4.4 state that a slot whose regeneration fails (after the bounded
retries) keeps its prior content and is flagged failed, while a successful
slot carries its revised question; the per-slot outcome is abstracted as
`Option Question` (`none` = retries exhausted). -/
def regenerateSlot (orig : Question) (outcome : Option Question) : SlotResult :=
  match outcome with
  | some q' => { question := q', failed := false }
  | none => { question := orig, failed := true }

/-- Modelled from the spec: regenerate-all applies one feedback string across
every slot independently; partial failures leave unaffected questions
untouched and failed slots flagged. -/
def regenerateAll (slots : List (Question × Option Question)) : List SlotResult :=
  slots.map fun p => regenerateSlot p.1 p.2

/-- Modelled from the spec: a partially failed regenerate-all run does not
advance the paper past its prior status (the testable-properties scenario);
only a fully successful run may move a `DRAFT` paper to `REVISED`. -/
def statusAfterRegenerate (prior : PaperStatus) (results : List SlotResult) :
    PaperStatus :=
  if results.any SlotResult.failed then prior
  else if prior == .DRAFT then .REVISED else prior

/-- C7: in a regenerate-all run each failed slot keeps its prior question and
is flagged failed, each successful slot carries exactly its own revision and
no failure flag, a run with any failure leaves the paper status at its prior
value, and the dashboard's per-question update leaves every question with a
different number untouched. -/
theorem regenerate_all_partial_failure (slots : List (Question × Option Question))
    (prior : PaperStatus) (qs : List Question) (n : Nat) (r : Question) :
    (regenerateAll slots).length = slots.length ∧
    (∀ i : Nat, (regenerateAll slots)[i]?
      = (slots[i]?).map fun p => regenerateSlot p.1 p.2) ∧
    (∀ q, regenerateSlot q none = { question := q, failed := true }) ∧
    (∀ orig q', regenerateSlot orig (some q')
      = { question := q', failed := false }) ∧
    ((regenerateAll slots).any SlotResult.failed = true →
      statusAfterRegenerate prior (regenerateAll slots) = prior) ∧
    (∀ q ∈ qs, q.question_number ≠ n → q ∈ handleQuestionRevised qs n r) := by
  refine ⟨List.length_map _ _, ?_, fun _ => rfl, fun _ _ => rfl, ?_, ?_⟩
  · intro i
    simp [regenerateAll, List.getElem?_map]
  · intro h
    simp [statusAfterRegenerate, h]
  · intro q hq hne
    refine List.mem_map.mpr ⟨q, hq, ?_⟩
    simp [hne]

/-- Witness for C7: a two-slot run where slot 2 fails keeps question 2
unchanged and flagged, and does not advance a `REVISED` paper; revising
question 1 leaves question 2 in place. -/
theorem regenerate_all_partial_failure_witness :
    statusAfterRegenerate .REVISED
        (regenerateAll
          [(⟨1, "q1", false⟩, some ⟨1, "q1 new", false⟩), (⟨2, "q2", false⟩, none)])
      = .REVISED ∧
    (⟨2, "q2", false⟩ : Question)
      ∈ handleQuestionRevised [⟨1, "q1", false⟩, ⟨2, "q2", false⟩] 1
          ⟨1, "q1 new", false⟩ := by
  constructor
  · exact (regenerate_all_partial_failure
      [(⟨1, "q1", false⟩, some ⟨1, "q1 new", false⟩), (⟨2, "q2", false⟩, none)]
      .REVISED [] 0 ⟨0, "", false⟩).2.2.2.2.1 (by decide)
  · exact (regenerate_all_partial_failure [] .DRAFT
      [⟨1, "q1", false⟩, ⟨2, "q2", false⟩] 1 ⟨1, "q1 new", false⟩).2.2.2.2.2
      ⟨2, "q2", false⟩ (by simp) (by decide)

/-- Does a record belong to the given (paper, question) pair? -/
def matchesKey (pid : String) (qn : Nat) (r : RevisionRecord) : Bool :=
  r.paper_id == pid && r.question_number == qn

/-- Modelled from the spec: the revision write path is not in the sources;
the RevisionRecord log is append-only and sequence indices per
(paper, question) are assigned consecutively, the new record receiving index
(number of existing records of that pair) + 1. -/
def addRevision (log : List RevisionRecord) (pid : String) (qn : Nat)
    (fb : String) : List RevisionRecord :=
  log ++ [{ paper_id := pid, question_number := qn,
            sequence_index := (log.filter (matchesKey pid qn)).length + 1,
            feedback := fb }]

/-- A revision log produced by a sequence of revision writes
(paper id, question number, feedback), starting from the empty log. -/
def buildLog (ops : List (String × Nat × String)) : List RevisionRecord :=
  ops.foldl (fun log op => addRevision log op.1 op.2.1 op.2.2) []

/-- The filter applied by history retrieval: all records of the paper,
restricted to one question when a question-number filter is given. -/
def historyPred (pid : String) (qn : Option Nat) (r : RevisionRecord) : Bool :=
  r.paper_id == pid &&
    (match qn with
     | none => true
     | some n => r.question_number == n)

/-- Ordering of revision records by their sequence index. -/
def seqLe (a b : RevisionRecord) : Prop := a.sequence_index ≤ b.sequence_index

instance : DecidableRel seqLe :=
  fun a b => inferInstanceAs (Decidable (a.sequence_index ≤ b.sequence_index))

instance : IsTotal RevisionRecord seqLe :=
  ⟨fun a b => Nat.le_total a.sequence_index b.sequence_index⟩

instance : IsTrans RevisionRecord seqLe :=
  ⟨fun _ _ _ => Nat.le_trans⟩

/-- Modelled from the spec: the `/revision-history` read path behind
`getRevisionHistory` is not in the sources; §4.4 states it returns all
RevisionRecords of the paper (optionally filtered by question number)
ordered by sequence index, as a pure read. -/
def revisionHistoryFor (log : List RevisionRecord) (pid : String)
    (qn : Option Nat) : List RevisionRecord :=
  List.insertionSort seqLe (log.filter (historyPred pid qn))

/-- A stored paper: its lifecycle status next to the revision log; history
retrieval reads only the log. -/
structure StoredPaper where
  status : PaperStatus
  log : List RevisionRecord

def revisionHistoryOf (p : StoredPaper) (pid : String) (qn : Option Nat) :
    List RevisionRecord :=
  revisionHistoryFor p.log pid qn

theorem buildLog_seq_invariant (ops : List (String × Nat × String)) :
    ∀ pid qn,
      ((buildLog ops).filter (matchesKey pid qn)).map RevisionRecord.sequence_index
        = List.range' 1 ((buildLog ops).filter (matchesKey pid qn)).length := by
  suffices h : ∀ (ops : List (String × Nat × String)) (log : List RevisionRecord),
      (∀ pid qn, (log.filter (matchesKey pid qn)).map RevisionRecord.sequence_index
        = List.range' 1 (log.filter (matchesKey pid qn)).length) →
      ∀ pid qn,
        ((ops.foldl (fun log op => addRevision log op.1 op.2.1 op.2.2) log).filter
            (matchesKey pid qn)).map RevisionRecord.sequence_index
          = List.range' 1 ((ops.foldl (fun log op => addRevision log op.1 op.2.1 op.2.2)
              log).filter (matchesKey pid qn)).length by
    exact h ops [] (by intro pid qn; rfl)
  intro ops
  induction ops with
  | nil => intro log hlog pid qn; exact hlog pid qn
  | cons op ops ih =>
    intro log hlog pid qn
    refine ih (addRevision log op.1 op.2.1 op.2.2) ?_ pid qn
    intro pid' qn'
    by_cases hk : matchesKey pid' qn'
        { paper_id := op.1, question_number := op.2.1,
          sequence_index := (log.filter (matchesKey op.1 op.2.1)).length + 1,
          feedback := op.2.2 } = true
    · obtain ⟨hp, hq⟩ : op.1 = pid' ∧ op.2.1 = qn' := by
        simpa [matchesKey, Bool.and_eq_true, beq_iff_eq] using hk
      subst hp; subst hq
      simp [addRevision, List.filter_append, hk, hlog,
        List.range'_concat, Nat.add_comm]
    · have hfalse : matchesKey pid' qn'
          { paper_id := op.1, question_number := op.2.1,
            sequence_index := (log.filter (matchesKey op.1 op.2.1)).length + 1,
            feedback := op.2.2 } = false := by
        simpa using hk
      simp [addRevision, List.filter_append, hfalse, hlog pid' qn']

/-- C8: over any revision log produced by the append-only write path, history
retrieval returns exactly the records matching the paper (and the question
filter when given) as a permutation of that filtered log, ordered by
sequence index; for every (paper, question) pair the sequence indices of its
records are exactly `1, 2, …, k` — strictly increasing and gap-free from 1;
and retrieval is a pure read that does not depend on the paper's current
status. -/
theorem revision_history_retrieval (ops : List (String × Nat × String))
    (pid : String) (qn : Option Nat) :
    List.Perm (revisionHistoryFor (buildLog ops) pid qn)
      ((buildLog ops).filter (historyPred pid qn)) ∧
    List.Pairwise seqLe (revisionHistoryFor (buildLog ops) pid qn) ∧
    (∀ pid' qn',
      ((buildLog ops).filter (matchesKey pid' qn')).map RevisionRecord.sequence_index
        = List.range' 1 ((buildLog ops).filter (matchesKey pid' qn')).length) ∧
    (∀ s₁ s₂ : PaperStatus,
      revisionHistoryOf { status := s₁, log := buildLog ops } pid qn
        = revisionHistoryOf { status := s₂, log := buildLog ops } pid qn) := by
  refine ⟨List.perm_insertionSort seqLe _, List.sorted_insertionSort seqLe _,
    buildLog_seq_invariant ops, fun _ _ => rfl⟩

/-- Witness for C8: two revisions of question 1 of paper "p" carry the
sequence indices `[1, 2]`. -/
theorem revision_history_retrieval_witness :
    ((buildLog [("p", 1, "fb1"), ("p", 1, "fb2")]).filter
        (matchesKey "p" 1)).map RevisionRecord.sequence_index
      = List.range' 1 ((buildLog [("p", 1, "fb1"), ("p", 1, "fb2")]).filter
          (matchesKey "p" 1)).length :=
  (revision_history_retrieval [("p", 1, "fb1"), ("p", 1, "fb2")] "p" none).2.2.1
    "p" 1

end ExamSmith
